import Mathlib

/-!
# Dino game: the per-frame simulation of `PlayMode`

A shallow embedding of `src/PlayMode.cpp` / `src/PlayMode.hpp`.

Conventions of the embedding:

* `float` values are read as elements of an ordered field `K`; the square root
  of `<cmath>` / glm is a parameter `sqrt : K → K` (instantiated with
  `Real.sqrt` over `ℝ` wherever its value matters).
* The accumulation `jump_timer += elapsed` stores a `float`: its rounding is a
  parameter `fl : K → K`, instantiated with `to_float` (binary32, round to
  nearest, ties to even) wherever its value matters, and `jump_cooldown` is the
  binary32 value that `0.7` is stored as. The other arithmetic is read exactly.
* `rand()` is a parameter `rand : Nat → Nat`: `rand i` is the value returned by
  the `i`-th call made during one `update`; `RAND_MAX` is a parameter.
* The process-wide lists `obstacles` and `projectiles` are fields of the state.
* Every `Projectile` exclusively owns its `Scene::Transform`, so the position
  is stored in the entity; the drawable list of the scene is not part of the
  state, hence `destroy_self` (which only touches the scene) leaves no trace.
* `std::list::erase` is only defined for an iterator of the list it is called
  on; a call with an iterator of another list has no defined result and is
  reported as `none`.
-/

set_option autoImplicit false

namespace DinoGame

variable {K : Type} [LinearOrderedField K]

/-! ## Data model -/

/-- The three float components of a `glm::vec3`. -/
structure Vec3 (K : Type) where
  x : K
  y : K
  z : K

/-- Componentwise sum, `a + b` of glm. -/
def Vec3.add (a b : Vec3 K) : Vec3 K := ⟨a.x + b.x, a.y + b.y, a.z + b.z⟩

/-- Componentwise difference, `a - b` of glm. -/
def Vec3.sub (a b : Vec3 K) : Vec3 K := ⟨a.x - b.x, a.y - b.y, a.z - b.z⟩

/-- Euclidean norm, `glm::length(v) = sqrt(dot(v, v))`. -/
def Vec3.length (sqrt : K → K) (v : Vec3 K) : K :=
  sqrt (v.x * v.x + v.y * v.y + v.z * v.z)

/-- The fields of `struct Projectile : GameObject` that the simulation reads:
the position held by its transform, `speed` and `lifetime`. -/
structure Projectile (K : Type) where
  position : Vec3 K
  speed : K
  lifetime : K

/-- The constructor `Projectile(scene, mesh_name, position, speed)`; `lifetime`
keeps its default member initialiser `2`. -/
def Projectile.create (position : Vec3 K) (speed : K) : Projectile K :=
  { position := position, speed := speed, lifetime := 2 }

/-- The method `Projectile::update`: the entity after the step, and whether it
was destroyed this update. -/
def Projectile.update (p : Projectile K) (elapsed : K) : Projectile K × Bool :=
  let p1 : Projectile K :=
    { p with position := p.position.add ⟨0, p.speed * elapsed, 0⟩ }
  let p2 : Projectile K := { p1 with lifetime := p1.lifetime - elapsed }
  if p2.lifetime < 0 then (p2, true) else (p2, false)

/-- The struct `PlayMode::Button`; both members are `uint8_t`. -/
structure Button where
  downs : Nat
  pressed : Nat
deriving DecidableEq

/-- The game state: the members of `PlayMode` together with the two global
entity lists. `player` is the position of the player transform. -/
structure PlayMode (K : Type) where
  left : Button
  right : Button
  down : Button
  up : Button
  game_over : Bool
  player : Vec3 K
  start_pos : Vec3 K
  jump : Bool
  jump_timer : K
  spawn_timer : K
  obstacles : List (Projectile K)
  projectiles : List (Projectile K)

/-- The member `float jump_cooldown = 0.7`, never assigned after construction:
the binary32 value nearest to `0.7`, which is `11744051 / 2^24`. -/
def jump_cooldown : K := 11744051 / 16777216

/-- The multiple of `q` nearest to `x`, the even multiple on a tie. -/
def round_to_even [FloorRing K] (q x : K) : K :=
  let n : ℤ := ⌊x / q⌋
  let r : K := x / q - (n : K)
  if r < 1 / 2 then (n : K) * q
  else if 1 / 2 < r then ((n : K) + 1) * q
  else if n % 2 = 0 then (n : K) * q
  else ((n : K) + 1) * q

/-- The `float` (IEEE 754 binary32, round to nearest, ties to even) that a
value `x` below the overflow threshold is stored as: `x` rounded to a multiple
of `2^(e - 23)`, where `2^e <= |x| < 2^(e+1)` and `e` is at least `-126`. -/
def to_float [FloorRing K] (x : K) : K :=
  if x = 0 then 0
  else round_to_even ((2 : K) ^ (max (Int.log 2 |x|) (-126) - 23)) x

/-- The constructor `PlayMode::PlayMode()`: `scene_player` is the position of
the transform named "Player" in the loaded scene; the global lists are not
touched by the constructor. -/
def PlayMode.construct (scene_player : Vec3 K)
    (obstacles projectiles : List (Projectile K)) : PlayMode K :=
  { left := ⟨0, 0⟩, right := ⟨0, 0⟩, down := ⟨0, 0⟩, up := ⟨0, 0⟩
    game_over := false
    player := scene_player
    start_pos := scene_player
    jump := false
    jump_timer := 0
    spawn_timer := 3
    obstacles := obstacles
    projectiles := projectiles }

/-! ## Helpers of `PlayMode` -/

/-- The function `PlayMode::jump_fn`. -/
def jump_fn (sqrt : K → K) (t : K) : K :=
  let h : K := 3
  let g : K := 5
  let x : K := g * t - sqrt h
  max (h - x * x) 0

/-- The function `PlayMode::random_bool`, on the value `r` returned by `rand()`. -/
def random_bool (r : Nat) : Bool := r % 2 != 0

/-- The function `PlayMode::random_float`, on the value `r` returned by
`rand()`; the quotient and the sum are read exactly. -/
def random_float (RAND_MAX : Nat) (low high : K) (r : Nat) : K :=
  low + (r : K) / ((RAND_MAX : K) / (high - low))

/-! ## Input events -/

/-- The key codes `handle_event` distinguishes. -/
inductive Key where
  | ESCAPE
  | A
  | D
  | W
  | S
  | other
deriving DecidableEq

/-- The event types `handle_event` distinguishes. -/
inductive Event where
  | KEY_DOWN (key : Key)
  | KEY_UP (key : Key)
  | MOUSE_BUTTON_DOWN
  | other
deriving DecidableEq

/-- The statement `b.downs += 1; b.pressed = true;` on a `uint8_t` pair. -/
def Button.press (b : Button) : Button :=
  { downs := (b.downs + 1) % 256, pressed := 1 }

/-- The statement `b.pressed = false;`. -/
def Button.release (b : Button) : Button := { b with pressed := 0 }

/-- The function `PlayMode::handle_event`: the state of the current mode after
the event and the returned flag. A restart replaces the current mode by a newly
constructed `PlayMode` after clearing both lists. -/
def handle_event (scene_player : Vec3 K) (s : PlayMode K) (evt : Event) :
    PlayMode K × Bool :=
  match evt with
  | Event.KEY_DOWN Key.ESCAPE => (s, true)
  | Event.KEY_DOWN Key.A => ({ s with left := s.left.press }, true)
  | Event.KEY_DOWN Key.D => ({ s with right := s.right.press }, true)
  | Event.KEY_DOWN Key.W =>
      let s1 : PlayMode K := { s with up := s.up.press }
      if s1.game_over = false ∧ s1.jump = false then ({ s1 with jump := true }, true)
      else (s1, true)
  | Event.KEY_DOWN Key.S => ({ s with down := s.down.press }, true)
  | Event.KEY_DOWN Key.other => (s, false)
  | Event.KEY_UP Key.A => ({ s with left := s.left.release }, true)
  | Event.KEY_UP Key.D =>
      let s1 : PlayMode K := { s with right := s.right.release }
      if s1.game_over = false then
        let dz : K := s1.player.z - s1.start_pos.z
        let pz : K := if dz < 3 / 2 then 3 else 5
        ({ s1 with projectiles :=
            s1.projectiles ++ [Projectile.create ⟨0, s1.player.y + 2, pz⟩ 20] }, true)
      else (s1, true)
  | Event.KEY_UP Key.W => ({ s with up := s.up.release }, true)
  | Event.KEY_UP Key.S => ({ s with down := s.down.release }, true)
  | Event.KEY_UP Key.ESCAPE => (s, false)
  | Event.KEY_UP Key.other => (s, false)
  | Event.MOUSE_BUTTON_DOWN =>
      if s.game_over = true then (PlayMode.construct scene_player [] [], true)
      else (s, true)
  | Event.other => (s, false)

/-! ## `std::list` erasure -/

/-- The two global lists. -/
inductive ListId where
  | obstacles
  | projectiles
deriving DecidableEq

/-- A `std::list` iterator: the list it walks and its position there. -/
structure Iter where
  owner : ListId
  index : Nat

/-- The call `self.erase(it)` on the list `self` with contents `l`: defined
only when `it` is a dereferenceable iterator of `self`. -/
def list_erase {α : Type} (self : ListId) (l : List α) (it : Iter) : Option (List α) :=
  if it.owner = self ∧ it.index < l.length then some (l.eraseIdx it.index) else none

/-! ## `PlayMode::update` -/

/-- The jump block of `update` (`if (jump) ...`); `fl` is the rounding of the
sum stored by `jump_timer += elapsed`. -/
def update_jump (sqrt fl : K → K) (s : PlayMode K) (elapsed : K) : PlayMode K :=
  if s.jump = true then
    let s1 : PlayMode K := { s with jump_timer := fl (s.jump_timer + elapsed) }
    let s2 : PlayMode K :=
      { s1 with player := s1.start_pos.add ⟨0, 0, jump_fn sqrt s1.jump_timer⟩ }
    if s2.jump_timer > jump_cooldown then { s2 with jump := false, jump_timer := 0 }
    else s2
  else s

/-- One conditional `obstacles.emplace_back(Projectile(scene, "Obstacle", pos, -20))`. -/
def spawn_slot (draw : Bool) (position : Vec3 K) (obstacles : List (Projectile K)) :
    List (Projectile K) :=
  if draw = true then obstacles ++ [Projectile.create position (-20)] else obstacles

/-- The block `// spawn obstacles` of `update`. -/
def update_spawn (RAND_MAX : Nat) (s : PlayMode K) (elapsed : K) (rand : Nat → Nat) :
    PlayMode K :=
  if s.spawn_timer < 0 then
    let o1 := spawn_slot (random_bool (rand 0)) ⟨0, 15, 1⟩ s.obstacles
    let o2 := spawn_slot (random_bool (rand 1)) ⟨0, 15, 3⟩ o1
    let o3 := spawn_slot (random_bool (rand 2)) ⟨0, 17, 5⟩ o2
    { s with obstacles := o3, spawn_timer := random_float RAND_MAX (3 / 2) 3 (rand 3) }
  else { s with spawn_timer := s.spawn_timer - elapsed }

/-- The condition of the obstacle/player test in `update`. -/
def hits_player (ppos : Vec3 K) (o : Projectile K) : Bool :=
  decide (|o.position.y - ppos.y| < 2 ∧ |o.position.z - ppos.z| < 3)

/-- The loop over `obstacles` in `update`: the list and the `game_over` flag
after the loop, from the flag before it. -/
def obstacle_loop (ppos : Vec3 K) (elapsed : K) :
    List (Projectile K) → Bool → List (Projectile K) × Bool
  | [], game_over => ([], game_over)
  | o :: rest, game_over =>
      let game_over1 := if hits_player ppos o = true then true else game_over
      let r := o.update elapsed
      let tail := obstacle_loop ppos elapsed rest game_over1
      -- if (o->update(scene, elapsed)) o = obstacles.erase(o); else ++o;
      if r.2 = true then tail else (r.1 :: tail.1, tail.2)

/-- The block `// update obstacles and check for collision with player`. -/
def update_obstacles (s : PlayMode K) (elapsed : K) : PlayMode K :=
  let r := obstacle_loop s.player elapsed s.obstacles s.game_over
  { s with obstacles := r.1, game_over := r.2 }

/-- The inner loop of the projectile pass: the position of the first obstacle
with `glm::length(ppos - o->transform->position) < 2`, if any. -/
def first_hit (sqrt : K → K) (ppos : Vec3 K) : List (Projectile K) → Option Nat
  | [] => none
  | o :: rest =>
      if (ppos.sub o.position).length sqrt < 2 then some 0
      else (first_hit sqrt ppos rest).map (fun i => i + 1)

/-- The loop over `projectiles` in `update`. `done` are the projectiles before
the iterator `p`, the second argument those from `p` on; the result is the
pair of the projectile list and the obstacle list after the loop. -/
def projectile_loop (sqrt : K → K) (elapsed : K) :
    List (Projectile K) → List (Projectile K) → List (Projectile K) →
      Option (List (Projectile K) × List (Projectile K))
  | done, [], obstacles => some (done, obstacles)
  | done, p :: todo, obstacles =>
      match first_hit sqrt p.position obstacles with
      | some i =>
          -- o->destroy_self(scene); obstacles.erase(o);
          (list_erase ListId.obstacles obstacles ⟨ListId.obstacles, i⟩).bind
            fun obstacles1 =>
          -- p->destroy_self(scene); p = obstacles.erase(p);
          (list_erase ListId.obstacles obstacles1 ⟨ListId.projectiles, done.length⟩).bind
            fun obstacles2 =>
          projectile_loop sqrt elapsed done todo obstacles2
      | none =>
          let r := p.update elapsed
          -- if (p->update(scene, elapsed)) p = projectiles.erase(p); else ++p;
          if r.2 = true then
            (list_erase ListId.projectiles (done ++ p :: todo)
                ⟨ListId.projectiles, done.length⟩).bind
              fun _ => projectile_loop sqrt elapsed done todo obstacles
          else projectile_loop sqrt elapsed (done ++ [r.1]) todo obstacles

/-- The block `// update projectiles and check for collision with obstacles`. -/
def update_projectiles (sqrt : K → K) (s : PlayMode K) (elapsed : K) :
    Option (PlayMode K) :=
  (projectile_loop sqrt elapsed [] s.projectiles s.obstacles).map
    fun r => { s with projectiles := r.1, obstacles := r.2 }

/-- The block `//reset button press counters:`. -/
def reset_downs (s : PlayMode K) : PlayMode K :=
  { s with
    left := { s.left with downs := 0 }
    right := { s.right with downs := 0 }
    up := { s.up with downs := 0 }
    down := { s.down with downs := 0 } }

/-- The function `PlayMode::update`. -/
def update (sqrt fl : K → K) (RAND_MAX : Nat) (s : PlayMode K) (elapsed : K)
    (rand : Nat → Nat) : Option (PlayMode K) :=
  (if s.game_over = false then
      let s1 := update_jump sqrt fl s elapsed
      let s2 := update_spawn RAND_MAX s1 elapsed rand
      let s3 := update_obstacles s2 elapsed
      update_projectiles sqrt s3 elapsed
    else some s).map reset_downs

/-- A run of `update` calls, one per frame `(elapsed, rand)`. -/
def run_updates (sqrt fl : K → K) (RAND_MAX : Nat) :
    PlayMode K → List (K × (Nat → Nat)) → Option (PlayMode K)
  | s, [] => some s
  | s, f :: frames =>
      (update sqrt fl RAND_MAX s f.1 f.2).bind fun s1 => run_updates sqrt fl RAND_MAX s1 frames

/-- The states the program can be in: the initial mode, then any interleaving
of events and frames. -/
inductive Reachable (sqrt fl : K → K) (RAND_MAX : Nat) (scene_player : Vec3 K) :
    PlayMode K → Prop
  | start : Reachable sqrt fl RAND_MAX scene_player (PlayMode.construct scene_player [] [])
  | event (s : PlayMode K) (evt : Event) :
      Reachable sqrt fl RAND_MAX scene_player s →
      Reachable sqrt fl RAND_MAX scene_player (handle_event scene_player s evt).1
  | frame (s s1 : PlayMode K) (elapsed : K) (rand : Nat → Nat) :
      Reachable sqrt fl RAND_MAX scene_player s →
      update sqrt fl RAND_MAX s elapsed rand = some s1 →
      Reachable sqrt fl RAND_MAX scene_player s1

/-- The state after the jump, spawn and obstacle blocks of a frame. -/
def after_obstacles (sqrt fl : K → K) (RAND_MAX : Nat) (s : PlayMode K) (elapsed : K)
    (rand : Nat → Nat) : PlayMode K :=
  update_obstacles (update_spawn RAND_MAX (update_jump sqrt fl s elapsed) elapsed rand) elapsed

/-- The value stored in `jump_timer` after the frames `es` of a running jump
whose stored timer starts at `t`: `jump_timer += elapsed`, once per frame. -/
def timer_after (fl : K → K) (t : K) (es : List K) : K :=
  es.foldl (fun t e => fl (t + e)) t

/-- The `float` nearest to `0.2`, a frame length. -/
def fifth_float : K := 13421773 / 67108864

/-- The state one frame of `0.5` after a jump request in a fresh session at the
origin. -/
def jump_sample_first (sqrt : K → K) : PlayMode K :=
  { left := ⟨0, 0⟩, right := ⟨0, 0⟩, down := ⟨0, 0⟩, up := ⟨0, 1⟩
    game_over := false
    player := ⟨0, 0, jump_fn sqrt (1 / 2)⟩
    start_pos := ⟨0, 0, 0⟩
    jump := true
    jump_timer := 1 / 2
    spawn_timer := 5 / 2
    obstacles := []
    projectiles := [] }

/-- The state a further frame of `fifth_float` later, with the timer stored as
a `float`. -/
def jump_sample_second (sqrt : K → K) : PlayMode K :=
  { left := ⟨0, 0⟩, right := ⟨0, 0⟩, down := ⟨0, 0⟩, up := ⟨0, 1⟩
    game_over := false
    player := ⟨0, 0, jump_fn sqrt (11744051 / 16777216)⟩
    start_pos := ⟨0, 0, 0⟩
    jump := true
    jump_timer := 11744051 / 16777216
    spawn_timer := 154350387 / 67108864
    obstacles := []
    projectiles := [] }

/-! ## Lemmas on the entity step and the two loops -/

theorem Projectile.update_fst (p : Projectile K) (elapsed : K) :
    (p.update elapsed).1 =
      { position := ⟨p.position.x, p.position.y + p.speed * elapsed, p.position.z⟩
        speed := p.speed
        lifetime := p.lifetime - elapsed } := by
  unfold Projectile.update Vec3.add
  by_cases h : p.lifetime - elapsed < 0 <;> simp [h]

theorem Projectile.update_snd (p : Projectile K) (elapsed : K) :
    (p.update elapsed).2 = decide (p.lifetime - elapsed < 0) := by
  unfold Projectile.update
  by_cases h : p.lifetime - elapsed < 0 <;> simp [h]

/-- The obstacle loop keeps, stepped and in order, exactly the obstacles whose
step does not report destruction, and raises the flag when some obstacle of the
list passes the player test on the position it has before its step. -/
theorem obstacle_loop_eq (ppos : Vec3 K) (elapsed : K) (obs : List (Projectile K))
    (game_over : Bool) :
    obstacle_loop ppos elapsed obs game_over =
      (((obs.filter (fun o => !(o.update elapsed).2)).map (fun o => (o.update elapsed).1)),
        (game_over || obs.any (hits_player ppos))) := by
  induction obs generalizing game_over with
  | nil => simp [obstacle_loop]
  | cons o rest ih =>
      simp only [obstacle_loop, ih]
      by_cases hd : (o.update elapsed).2 = true <;>
        by_cases hh : hits_player ppos o = true <;>
          simp [hd, hh, List.filter_cons]

theorem first_hit_eq_none (sqrt : K → K) (ppos : Vec3 K) (obs : List (Projectile K)) :
    first_hit sqrt ppos obs = none ↔
      ∀ o ∈ obs, 2 ≤ (ppos.sub o.position).length sqrt := by
  induction obs with
  | nil => simp [first_hit]
  | cons o rest ih =>
      by_cases h : (ppos.sub o.position).length sqrt < 2
      · simp [first_hit, h]
      · simp [first_hit, h, ih, not_lt.mp h]

theorem first_hit_lt (sqrt : K → K) (ppos : Vec3 K) (obs : List (Projectile K)) (i : Nat)
    (h : first_hit sqrt ppos obs = some i) : i < obs.length := by
  induction obs generalizing i with
  | nil => simp [first_hit] at h
  | cons o rest ih =>
      by_cases hd : (ppos.sub o.position).length sqrt < 2
      · simp [first_hit, hd] at h
        subst h
        simp
      · simp [first_hit, hd] at h
        obtain ⟨j, hj, rfl⟩ := h
        have := ih j hj
        simp
        omega

/-- A collision in the projectile pass ends in the erasure of a projectile
iterator from the obstacle list, which has no defined result. -/
theorem projectile_loop_hit (sqrt : K → K) (elapsed : K) (done todo obs : List (Projectile K))
    (p : Projectile K) (i : Nat) (h : first_hit sqrt p.position obs = some i) :
    projectile_loop sqrt elapsed done (p :: todo) obs = none := by
  simp [projectile_loop, h, list_erase]

/-- Without any collision the projectile pass keeps, stepped and in order, the
projectiles whose step does not report destruction, and leaves the obstacle
list as it is. -/
theorem projectile_loop_clear (sqrt : K → K) (elapsed : K) (done todo obs : List (Projectile K))
    (h : ∀ p ∈ todo, first_hit sqrt p.position obs = none) :
    projectile_loop sqrt elapsed done todo obs =
      some (done ++ (todo.filter (fun p => !(p.update elapsed).2)).map
        (fun p => (p.update elapsed).1), obs) := by
  induction todo generalizing done with
  | nil => simp [projectile_loop]
  | cons p todo ih =>
      have hp : first_hit sqrt p.position obs = none := h p (List.mem_cons_self _ _)
      have ht : ∀ q ∈ todo, first_hit sqrt q.position obs = none :=
        fun q hq => h q (List.mem_cons_of_mem _ hq)
      by_cases hd : (p.update elapsed).2 = true
      · simp [projectile_loop, hp, hd, list_erase, ih done ht]
      · simp [projectile_loop, hp, hd, ih _ ht]

/-- The projectile pass has a defined result only when no projectile is within
distance `2` of an obstacle, and then the result is the one of
`projectile_loop_clear`. -/
theorem projectile_loop_some (sqrt : K → K) (elapsed : K) (done todo obs : List (Projectile K))
    (r : List (Projectile K) × List (Projectile K))
    (h : projectile_loop sqrt elapsed done todo obs = some r) :
    (∀ p ∈ todo, first_hit sqrt p.position obs = none) ∧
      r = (done ++ (todo.filter (fun p => !(p.update elapsed).2)).map
        (fun p => (p.update elapsed).1), obs) := by
  have hall : ∀ p ∈ todo, first_hit sqrt p.position obs = none := by
    induction todo generalizing done with
    | nil => simp
    | cons p todo ih =>
        cases hp : first_hit sqrt p.position obs with
        | some i => rw [projectile_loop_hit sqrt elapsed done todo obs p i hp] at h; simp at h
        | none =>
            intro q hq
            rcases List.mem_cons.mp hq with rfl | hq
            · exact hp
            · by_cases hd : (p.update elapsed).2 = true
              · simp [projectile_loop, hp, hd, list_erase] at h
                exact ih done h q hq
              · simp [projectile_loop, hp, hd] at h
                exact ih _ h q hq
  refine ⟨hall, ?_⟩
  rw [projectile_loop_clear sqrt elapsed done todo obs hall] at h
  exact (Option.some.inj h).symm

/-! ## Lemmas on `update` -/

theorem update_game_over (sqrt fl : K → K) (RAND_MAX : Nat) (s : PlayMode K) (elapsed : K)
    (rand : Nat → Nat) (h : s.game_over = true) :
    update sqrt fl RAND_MAX s elapsed rand = some (reset_downs s) := by
  simp [update, h]

theorem update_playing (sqrt fl : K → K) (RAND_MAX : Nat) (s : PlayMode K) (elapsed : K)
    (rand : Nat → Nat) (h : s.game_over = false) :
    update sqrt fl RAND_MAX s elapsed rand =
      (update_projectiles sqrt (after_obstacles sqrt fl RAND_MAX s elapsed rand) elapsed).map
        reset_downs := by
  simp [update, h, after_obstacles]

/-- A frame of a Playing state with a defined result: the result is the state
after the obstacle block with the surviving projectiles stepped and the press
counters reset, and no projectile was within distance `2` of an obstacle. -/
theorem update_playing_some (sqrt fl : K → K) (RAND_MAX : Nat) (s s1 : PlayMode K) (elapsed : K)
    (rand : Nat → Nat) (h : s.game_over = false)
    (hs : update sqrt fl RAND_MAX s elapsed rand = some s1) :
    s1 = reset_downs
      { after_obstacles sqrt fl RAND_MAX s elapsed rand with
        projectiles :=
          ((after_obstacles sqrt fl RAND_MAX s elapsed rand).projectiles.filter
            (fun p => !(p.update elapsed).2)).map (fun p => (p.update elapsed).1) } := by
  rw [update_playing sqrt fl RAND_MAX s elapsed rand h] at hs
  unfold update_projectiles at hs
  cases hr : projectile_loop sqrt elapsed []
      (after_obstacles sqrt fl RAND_MAX s elapsed rand).projectiles
      (after_obstacles sqrt fl RAND_MAX s elapsed rand).obstacles with
  | none => simp [hr] at hs
  | some r =>
      obtain ⟨-, hr2⟩ := projectile_loop_some sqrt elapsed [] _ _ r hr
      simp [hr, hr2] at hs
      rw [← hs]

theorem update_jump_obstacles (sqrt fl : K → K) (s : PlayMode K) (elapsed : K) :
    (update_jump sqrt fl s elapsed).obstacles = s.obstacles := by
  unfold update_jump
  by_cases hj : s.jump = true <;>
    by_cases hc : fl (s.jump_timer + elapsed) > jump_cooldown <;> simp [hj, hc]

theorem update_jump_spawn_timer (sqrt fl : K → K) (s : PlayMode K) (elapsed : K) :
    (update_jump sqrt fl s elapsed).spawn_timer = s.spawn_timer := by
  unfold update_jump
  by_cases hj : s.jump = true <;>
    by_cases hc : fl (s.jump_timer + elapsed) > jump_cooldown <;> simp [hj, hc]

theorem update_spawn_fields (RAND_MAX : Nat) (s : PlayMode K) (elapsed : K) (rand : Nat → Nat) :
    (update_spawn RAND_MAX s elapsed rand).game_over = s.game_over ∧
      (update_spawn RAND_MAX s elapsed rand).player = s.player ∧
      (update_spawn RAND_MAX s elapsed rand).jump = s.jump ∧
      (update_spawn RAND_MAX s elapsed rand).jump_timer = s.jump_timer ∧
      (update_spawn RAND_MAX s elapsed rand).start_pos = s.start_pos := by
  unfold update_spawn
  by_cases h : s.spawn_timer < 0 <;> simp [h]

/-- A frame of a Playing state has no defined result exactly when, after the
obstacle block, some projectile is within distance `2` of some obstacle. -/
theorem update_eq_none_iff (sqrt fl : K → K) (RAND_MAX : Nat) (s : PlayMode K) (elapsed : K)
    (rand : Nat → Nat) (h : s.game_over = false) :
    update sqrt fl RAND_MAX s elapsed rand = none ↔
      ∃ p ∈ (after_obstacles sqrt fl RAND_MAX s elapsed rand).projectiles,
        ∃ o ∈ (after_obstacles sqrt fl RAND_MAX s elapsed rand).obstacles,
          (p.position.sub o.position).length sqrt < 2 := by
  rw [update_playing sqrt fl RAND_MAX s elapsed rand h]
  unfold update_projectiles
  simp only [Option.map_eq_none']
  constructor
  · intro hnone
    by_contra hno
    have hall : ∀ p ∈ (after_obstacles sqrt fl RAND_MAX s elapsed rand).projectiles,
        first_hit sqrt p.position (after_obstacles sqrt fl RAND_MAX s elapsed rand).obstacles =
          none := by
      intro p hp
      rw [first_hit_eq_none]
      intro o ho
      by_contra hlt
      exact hno ⟨p, hp, o, ho, not_le.mp hlt⟩
    rw [projectile_loop_clear sqrt elapsed [] _ _ hall] at hnone
    simp at hnone
  · rintro ⟨p, hp, o, ho, hlt⟩
    cases hr : projectile_loop sqrt elapsed []
        (after_obstacles sqrt fl RAND_MAX s elapsed rand).projectiles
        (after_obstacles sqrt fl RAND_MAX s elapsed rand).obstacles with
    | none => rfl
    | some r =>
        obtain ⟨hall, -⟩ := projectile_loop_some sqrt elapsed [] _ _ r hr
        have := (first_hit_eq_none sqrt p.position _).mp (hall p hp) o ho
        exact absurd hlt (not_lt.mpr this)

theorem after_obstacles_projectiles (sqrt fl : K → K) (RAND_MAX : Nat) (s : PlayMode K)
    (elapsed : K) (rand : Nat → Nat) :
    (after_obstacles sqrt fl RAND_MAX s elapsed rand).projectiles = s.projectiles := by
  have hj : (update_jump sqrt fl s elapsed).projectiles = s.projectiles := by
    unfold update_jump
    by_cases hj : s.jump = true <;>
      by_cases hc : fl (s.jump_timer + elapsed) > jump_cooldown <;> simp [hj, hc]
  have hsp : (update_spawn RAND_MAX (update_jump sqrt fl s elapsed) elapsed rand).projectiles =
      (update_jump sqrt fl s elapsed).projectiles := by
    unfold update_spawn
    by_cases h : (update_jump sqrt fl s elapsed).spawn_timer < 0 <;> simp [h]
  simp [after_obstacles, update_obstacles, hsp, hj]

/-- With no projectile in flight every frame has a defined result, again
without projectiles. -/
theorem update_defined_of_no_projectiles (sqrt fl : K → K) (RAND_MAX : Nat) (s : PlayMode K)
    (elapsed : K) (rand : Nat → Nat) (hp : s.projectiles = []) :
    ∃ s1, update sqrt fl RAND_MAX s elapsed rand = some s1 ∧ s1.projectiles = [] := by
  by_cases hover : s.game_over = true
  · exact ⟨reset_downs s, update_game_over sqrt fl RAND_MAX s elapsed rand hover, by
      simp [reset_downs, hp]⟩
  · have hplay : s.game_over = false := by simpa using hover
    have ha := after_obstacles_projectiles sqrt fl RAND_MAX s elapsed rand
    rw [hp] at ha
    rw [update_playing sqrt fl RAND_MAX s elapsed rand hplay]
    simp [update_projectiles, ha, projectile_loop, reset_downs]

/-- With no projectile in flight every run of frames has a defined result. -/
theorem run_updates_defined_of_no_projectiles (sqrt fl : K → K) (RAND_MAX : Nat)
    (frames : List (K × (Nat → Nat))) (s : PlayMode K) (hp : s.projectiles = []) :
    ∃ s2, run_updates sqrt fl RAND_MAX s frames = some s2 := by
  induction frames generalizing s with
  | nil => exact ⟨s, rfl⟩
  | cons f frames ih =>
      obtain ⟨s1, h1, hp1⟩ := update_defined_of_no_projectiles sqrt fl RAND_MAX s f.1 f.2 hp
      obtain ⟨s2, h2⟩ := ih s1 hp1
      exact ⟨s2, by simp only [run_updates, h1, Option.some_bind, h2]⟩

/-! ## The claims -/

/-- C3. Once `game_over` is set, `update` only resets the four press counters:
both entity lists, the player position, the timers, the jump state, the flag
and the `pressed` levels are returned as they were. -/
theorem update_frozen_when_game_over (sqrt fl : K → K) (RAND_MAX : Nat) (s : PlayMode K)
    (elapsed : K) (rand : Nat → Nat) (hover : s.game_over = true) :
    ∃ s1, update sqrt fl RAND_MAX s elapsed rand = some s1 ∧
      s1.obstacles = s.obstacles ∧ s1.projectiles = s.projectiles ∧
      s1.player = s.player ∧ s1.start_pos = s.start_pos ∧
      s1.spawn_timer = s.spawn_timer ∧ s1.jump = s.jump ∧ s1.jump_timer = s.jump_timer ∧
      s1.game_over = true ∧
      s1.left.pressed = s.left.pressed ∧ s1.right.pressed = s.right.pressed ∧
      s1.up.pressed = s.up.pressed ∧ s1.down.pressed = s.down.pressed ∧
      s1.left.downs = 0 ∧ s1.right.downs = 0 ∧ s1.up.downs = 0 ∧ s1.down.downs = 0 :=
  ⟨reset_downs s, update_game_over sqrt fl RAND_MAX s elapsed rand hover, by
    simp [reset_downs, hover]⟩

/-- C3, at a concrete state: a frame of `1/60` on a game-over state with one
obstacle, one projectile and pending press counts. -/
theorem update_frozen_when_game_over_witness :
    ({ PlayMode.construct (⟨0, 0, 0⟩ : Vec3 ℝ) [Projectile.create ⟨0, 1, 1⟩ (-20)]
          [Projectile.create ⟨0, 2, 3⟩ 20] with
        game_over := true, up := ⟨2, 1⟩ } : PlayMode ℝ).game_over = true ∧
      ∃ s1, update Real.sqrt to_float 32767
          ({ PlayMode.construct (⟨0, 0, 0⟩ : Vec3 ℝ) [Projectile.create ⟨0, 1, 1⟩ (-20)]
              [Projectile.create ⟨0, 2, 3⟩ 20] with
            game_over := true, up := ⟨2, 1⟩ } : PlayMode ℝ) (1 / 60) (fun _ => 1) = some s1 ∧
        s1.obstacles = [Projectile.create ⟨0, 1, 1⟩ (-20)] ∧
        s1.projectiles = [Projectile.create ⟨0, 2, 3⟩ 20] :=
  ⟨rfl,
    let ⟨s1, h, ho, hp, _⟩ := update_frozen_when_game_over Real.sqrt to_float 32767
      ({ PlayMode.construct (⟨0, 0, 0⟩ : Vec3 ℝ) [Projectile.create ⟨0, 1, 1⟩ (-20)]
          [Projectile.create ⟨0, 2, 3⟩ 20] with
        game_over := true, up := ⟨2, 1⟩ } : PlayMode ℝ) (1 / 60) (fun _ => 1) rfl
    ⟨s1, h, ho, hp⟩⟩

theorem spawn_slot_eq (draw : Bool) (position : Vec3 K) (obstacles : List (Projectile K)) :
    spawn_slot draw position obstacles =
      obstacles ++ (if draw = true then
        [({ position := position, speed := -20, lifetime := 2 } : Projectile K)] else []) := by
  cases draw <;> simp [spawn_slot, Projectile.create]

theorem random_float_eq (RAND_MAX r : Nat) (h : 0 < RAND_MAX) :
    random_float RAND_MAX (3 / 2 : K) 3 r = 3 / 2 + (3 / 2) * ((r : K) / (RAND_MAX : K)) := by
  have hR : (RAND_MAX : K) ≠ 0 := by exact_mod_cast h.ne.symm
  unfold random_float
  field_simp
  ring

/-- C5, as stated, fails: the draw `r = RAND_MAX` gives exactly `3`, which is
not below `3` (here with `RAND_MAX = 2147483647`). -/
theorem random_float_reaches_three :
    ¬ ((3 / 2 : ℚ) ≤ random_float 2147483647 (3 / 2 : ℚ) 3 2147483647 ∧
        random_float 2147483647 (3 / 2 : ℚ) 3 2147483647 < 3) := by
  norm_num [random_float]

/-- C5, amended. For every value `r` with `r <= RAND_MAX` the redrawn timer
`random_float(1.5, 3)`, read as the claim writes it,
`1.5 + r / (RAND_MAX / 1.5)`, lies in the closed range `[1.5, 3]`. -/
theorem random_float_range (RAND_MAX r : Nat) (hpos : 0 < RAND_MAX) (hr : r ≤ RAND_MAX) :
    (3 / 2 : K) ≤ random_float RAND_MAX (3 / 2 : K) 3 r ∧
      random_float RAND_MAX (3 / 2 : K) 3 r ≤ 3 := by
  have hR : (0 : K) < (RAND_MAX : K) := by exact_mod_cast hpos
  have h0 : (0 : K) ≤ (r : K) / (RAND_MAX : K) := div_nonneg (Nat.cast_nonneg r) hR.le
  have h1 : (r : K) / (RAND_MAX : K) ≤ 1 := by
    rw [div_le_one hR]
    exact_mod_cast hr
  rw [random_float_eq RAND_MAX r hpos]
  exact ⟨by linarith, by linarith⟩

/-- C5 amended, at the draw `r = 16384` with `RAND_MAX = 32767`. -/
theorem random_float_range_witness :
    0 < 32767 ∧ 16384 ≤ 32767 ∧
      (3 / 2 : ℚ) ≤ random_float 32767 (3 / 2 : ℚ) 3 16384 ∧
      random_float 32767 (3 / 2 : ℚ) 3 16384 ≤ 3 :=
  ⟨by decide, by decide,
    (random_float_range 32767 16384 (by decide) (by decide)).1,
    (random_float_range 32767 16384 (by decide) (by decide)).2⟩

/-- The jump fields and the player position at the end of a defined frame of a
Playing state are those the jump block leaves. -/
theorem update_playing_jump_fields (sqrt fl : K → K) (RAND_MAX : Nat) (s s1 : PlayMode K)
    (elapsed : K) (rand : Nat → Nat) (h : s.game_over = false)
    (hs : update sqrt fl RAND_MAX s elapsed rand = some s1) :
    s1.jump = (update_jump sqrt fl s elapsed).jump ∧
      s1.jump_timer = (update_jump sqrt fl s elapsed).jump_timer ∧
      s1.player = (update_jump sqrt fl s elapsed).player := by
  rw [update_playing_some sqrt fl RAND_MAX s s1 elapsed rand h hs]
  obtain ⟨-, h2, h3, h4, -⟩ :=
    update_spawn_fields RAND_MAX (update_jump sqrt fl s elapsed) elapsed rand
  simp [reset_downs, after_obstacles, update_obstacles, h2, h3, h4]

theorem update_jump_running (sqrt fl : K → K) (s : PlayMode K) (elapsed : K)
    (hj : s.jump = true) (hle : fl (s.jump_timer + elapsed) ≤ jump_cooldown) :
    (update_jump sqrt fl s elapsed).jump = true ∧
      (update_jump sqrt fl s elapsed).jump_timer = fl (s.jump_timer + elapsed) := by
  simp [update_jump, hj, not_lt.mpr hle]

theorem update_jump_ended (sqrt fl : K → K) (s : PlayMode K) (elapsed : K)
    (hj : s.jump = true) (hgt : jump_cooldown < fl (s.jump_timer + elapsed)) :
    (update_jump sqrt fl s elapsed).jump = false ∧
      (update_jump sqrt fl s elapsed).jump_timer = 0 ∧
      (update_jump sqrt fl s elapsed).player =
        s.start_pos.add ⟨0, 0, jump_fn sqrt (fl (s.jump_timer + elapsed))⟩ := by
  simp [update_jump, hj, hgt]

theorem update_jump_idle (sqrt fl : K → K) (s : PlayMode K) (elapsed : K)
    (hj : s.jump = false) : update_jump sqrt fl s elapsed = s := by
  simp [update_jump, hj]

theorem int_log_two_eq [FloorRing K] (x : K) (e : ℤ) (hlo : (2 : K) ^ e ≤ x)
    (hhi : x < (2 : K) ^ (e + 1)) : Int.log 2 x = e := by
  have hpos : 0 < x := lt_of_lt_of_le (zpow_pos (by norm_num) e) hlo
  have h1 : e ≤ Int.log 2 x := by
    rw [← Int.zpow_le_iff_le_log (by norm_num) hpos]
    simpa using hlo
  have h2 : Int.log 2 x < e + 1 := by
    rw [← Int.lt_zpow_iff_log_lt (by norm_num) hpos]
    simpa using hhi
  omega

/-- The value of `to_float x` when `x` lies in the binade of `2^e` and less than
half a unit in the last place above the multiple `n * 2^(e - 23)`. -/
theorem to_float_eq [FloorRing K] (x : K) (e n : ℤ) (hlo : (2 : K) ^ e ≤ |x|)
    (hhi : |x| < (2 : K) ^ (e + 1)) (he : -126 ≤ e)
    (hn : (n : K) ≤ x / (2 : K) ^ (e - 23))
    (hr : x / (2 : K) ^ (e - 23) - (n : K) < 1 / 2) :
    to_float x = (n : K) * (2 : K) ^ (e - 23) := by
  have hx : x ≠ 0 := by
    intro h
    rw [h, abs_zero] at hlo
    exact absurd hlo (not_le.mpr (zpow_pos (by norm_num) e))
  have hlog := int_log_two_eq |x| e hlo hhi
  have hfloor : ⌊x / (2 : K) ^ (e - 23)⌋ = n := by
    rw [Int.floor_eq_iff]
    exact ⟨hn, by linarith⟩
  simp only [to_float, hx, if_false, hlog, max_eq_left he, round_to_even, hfloor, hr, if_true]

/-- The `float` sum `0.5f + 0.2f` is the `float` that `0.7` is stored as. -/
theorem to_float_half_add_fifth :
    to_float ((1 / 2 : ℝ) + fifth_float) = 11744051 / 16777216 := by
  rw [to_float_eq _ (-1) 11744051 (by norm_num [abs_of_pos, fifth_float])
    (by norm_num [abs_of_pos, fifth_float]) (by norm_num) (by norm_num [fifth_float])
    (by norm_num [fifth_float])]
  norm_num

theorem to_float_zero_add_half : to_float ((0 : ℝ) + 1 / 2) = 1 / 2 := by
  rw [to_float_eq _ (-1) 8388608 (by norm_num [abs_of_pos]) (by norm_num [abs_of_pos])
    (by norm_num) (by norm_num) (by norm_num)]
  norm_num

theorem to_float_half : to_float (1 / 2 : ℝ) = 1 / 2 := by
  rw [to_float_eq _ (-1) 8388608 (by norm_num [abs_of_pos]) (by norm_num [abs_of_pos])
    (by norm_num) (by norm_num) (by norm_num)]
  norm_num

theorem sqrt_three_le : Real.sqrt 3 ≤ 17321 / 10000 := by
  rw [Real.sqrt_le_iff]
  norm_num

/-- Over the reals `jump_fn` has returned to `0` from `t = 0.693` on, which is
before the stored cooldown. -/
theorem jump_fn_zero_of_late (t : ℝ) (ht : 693 / 1000 ≤ t) : jump_fn Real.sqrt t = 0 := by
  have h3 : Real.sqrt 3 * Real.sqrt 3 = 3 := Real.mul_self_sqrt (by norm_num)
  have hs := sqrt_three_le
  have h0 : 0 ≤ Real.sqrt 3 := Real.sqrt_nonneg 3
  unfold jump_fn
  apply max_eq_right
  nlinarith

theorem jump_fn_zero_of_cooldown (t : ℝ) (ht : 7 / 10 ≤ t) : jump_fn Real.sqrt t = 0 :=
  jump_fn_zero_of_late t (by linarith)

/-- C7. Over the reals `jump_fn` is never negative, is `0` at `t = 0`, reaches
`3` at `t = sqrt 3 / 5`, never exceeds `3`, and is `0` for every `t >= 0.7`;
hence on the frame that ends a jump (the stored timer exceeds the stored
cooldown) the player is put at `start_pos`, both after the jump block and at
the end of a defined `update` of a Playing state, whatever the rounding of the
timer. -/
theorem jump_fn_profile :
    (∀ t : ℝ, 0 ≤ jump_fn Real.sqrt t) ∧
      jump_fn Real.sqrt 0 = 0 ∧
      jump_fn Real.sqrt (Real.sqrt 3 / 5) = 3 ∧
      (∀ t : ℝ, jump_fn Real.sqrt t ≤ 3) ∧
      (∀ t : ℝ, 7 / 10 ≤ t → jump_fn Real.sqrt t = 0) ∧
      (∀ (fl : ℝ → ℝ) (s : PlayMode ℝ) (elapsed : ℝ), s.jump = true →
        jump_cooldown < fl (s.jump_timer + elapsed) →
        (update_jump Real.sqrt fl s elapsed).jump = false ∧
          (update_jump Real.sqrt fl s elapsed).player = s.start_pos) ∧
      (∀ (fl : ℝ → ℝ) (RAND_MAX : Nat) (s s1 : PlayMode ℝ) (elapsed : ℝ) (rand : Nat → Nat),
        s.game_over = false → s.jump = true →
        update Real.sqrt fl RAND_MAX s elapsed rand = some s1 → s1.jump = false →
        s1.player = s.start_pos) := by
  have h3 : Real.sqrt 3 * Real.sqrt 3 = 3 := Real.mul_self_sqrt (by norm_num)
  have hend : ∀ (fl : ℝ → ℝ) (s : PlayMode ℝ) (elapsed : ℝ), s.jump = true →
      jump_cooldown < fl (s.jump_timer + elapsed) →
      (update_jump Real.sqrt fl s elapsed).jump = false ∧
        (update_jump Real.sqrt fl s elapsed).player = s.start_pos := by
    intro fl s elapsed hj hgt
    obtain ⟨h1, -, h2⟩ := update_jump_ended Real.sqrt fl s elapsed hj hgt
    refine ⟨h1, ?_⟩
    have hlate : (693 / 1000 : ℝ) ≤ fl (s.jump_timer + elapsed) := by
      have : (693 / 1000 : ℝ) ≤ jump_cooldown := by norm_num [jump_cooldown]
      linarith
    rw [h2, jump_fn_zero_of_late _ hlate]
    simp [Vec3.add]
  refine ⟨?_, ?_, ?_, ?_, jump_fn_zero_of_cooldown, hend, ?_⟩
  · intro t
    exact le_max_right _ _
  · unfold jump_fn
    apply max_eq_right
    nlinarith
  · have hx : (5 : ℝ) * (Real.sqrt 3 / 5) - Real.sqrt 3 = 0 := by ring
    simp only [jump_fn, hx]
    norm_num
  · intro t
    unfold jump_fn
    apply max_le
    · nlinarith [mul_self_nonneg (5 * t - Real.sqrt 3)]
    · norm_num
  · intro fl RAND_MAX s s1 elapsed rand hplay hj hs hj1
    obtain ⟨e1, -, e3⟩ :=
      update_playing_jump_fields Real.sqrt fl RAND_MAX s s1 elapsed rand hplay hs
    rw [e3]
    by_cases hgt : jump_cooldown < fl (s.jump_timer + elapsed)
    · exact (hend fl s elapsed hj hgt).2
    · have := (update_jump_running Real.sqrt fl s elapsed hj (not_lt.mp hgt)).1
      rw [← e1, hj1] at this
      exact absurd this (by simp)

/-- The `float` sum `0.69 + 0.02` is `11911823 / 2^24`. -/
theorem to_float_sample_sum :
    to_float ((69 / 100 : ℝ) + 2 / 100) = 11911823 / 16777216 := by
  rw [to_float_eq _ (-1) 11911823 (by norm_num [abs_of_pos]) (by norm_num [abs_of_pos])
    (by norm_num) (by norm_num) (by norm_num)]
  norm_num

/-- C7, at a concrete frame: a jump with timer `0.69` and a frame of `0.02`
ends with the player at `start_pos`; and `jump_fn 1 = 0`. -/
theorem jump_fn_profile_witness :
    ((7 / 10 : ℝ) ≤ 1 ∧ jump_fn Real.sqrt 1 = 0) ∧
      (({ PlayMode.construct (⟨0, 0, 1⟩ : Vec3 ℝ) [] [] with
            jump := true, jump_timer := 69 / 100 } : PlayMode ℝ).jump = true ∧
        (jump_cooldown : ℝ) < to_float
          (({ PlayMode.construct (⟨0, 0, 1⟩ : Vec3 ℝ) [] [] with
            jump := true, jump_timer := 69 / 100 } : PlayMode ℝ).jump_timer + 2 / 100) ∧
        (update_jump Real.sqrt to_float
            ({ PlayMode.construct (⟨0, 0, 1⟩ : Vec3 ℝ) [] [] with
              jump := true, jump_timer := 69 / 100 } : PlayMode ℝ) (2 / 100)).player =
          ⟨0, 0, 1⟩) :=
  ⟨⟨by norm_num, jump_fn_profile.2.2.2.2.1 1 (by norm_num)⟩,
    ⟨rfl, by
      show (jump_cooldown : ℝ) < to_float ((69 / 100 : ℝ) + 2 / 100)
      rw [to_float_sample_sum]
      norm_num [jump_cooldown],
      (jump_fn_profile.2.2.2.2.2.1 to_float
        ({ PlayMode.construct (⟨0, 0, 1⟩ : Vec3 ℝ) [] [] with
          jump := true, jump_timer := 69 / 100 } : PlayMode ℝ) (2 / 100) rfl
        (by
          show (jump_cooldown : ℝ) < to_float ((69 / 100 : ℝ) + 2 / 100)
          rw [to_float_sample_sum]
          norm_num [jump_cooldown])).2⟩⟩

/-- In every reachable state the jump timer is `0` whenever no jump is in
progress. -/
theorem reachable_idle_timer (sqrt fl : K → K) (RAND_MAX : Nat) (scene_player : Vec3 K)
    (s : PlayMode K) (h : Reachable sqrt fl RAND_MAX scene_player s) :
    s.jump = false → s.jump_timer = 0 := by
  induction h with
  | start => intro _; rfl
  | event s evt _ ih =>
      cases evt with
      | KEY_DOWN key =>
          cases key <;> try exact ih
          by_cases hc : s.game_over = false ∧ s.jump = false
          · simp [handle_event, hc]
          · simpa [handle_event, hc] using ih
      | KEY_UP key =>
          cases key <;> try exact ih
          by_cases hc : s.game_over = false
          · simpa [handle_event, hc] using ih
          · simpa [handle_event, hc] using ih
      | MOUSE_BUTTON_DOWN =>
          by_cases hc : s.game_over = true
          · simp [handle_event, hc, PlayMode.construct]
          · simpa [handle_event, hc] using ih
      | other => exact ih
  | frame s s1 elapsed rand _ hs ih =>
      by_cases hover : s.game_over = true
      · rw [update_game_over sqrt fl RAND_MAX s elapsed rand hover] at hs
        rw [← Option.some.inj hs]
        simpa [reset_downs] using ih
      · have hplay : s.game_over = false := by simpa using hover
        obtain ⟨e1, e2, -⟩ :=
          update_playing_jump_fields sqrt fl RAND_MAX s s1 elapsed rand hplay hs
        rw [e1, e2]
        by_cases hj : s.jump = true
        · by_cases hgt : jump_cooldown < fl (s.jump_timer + elapsed)
          · intro _
            exact (update_jump_ended sqrt fl s elapsed hj hgt).2.1
          · intro hf
            rw [(update_jump_running sqrt fl s elapsed hj (not_lt.mp hgt)).1] at hf
            exact absurd hf (by simp)
        · have hj0 : s.jump = false := by simpa using hj
          rw [update_jump_idle sqrt fl s elapsed hj0]
          exact ih

/-- The flag `game_over` is never cleared by `update`. -/
theorem update_keeps_game_over (sqrt fl : K → K) (RAND_MAX : Nat) (s s1 : PlayMode K)
    (elapsed : K) (rand : Nat → Nat) (hs : update sqrt fl RAND_MAX s elapsed rand = some s1)
    (h1 : s1.game_over = false) : s.game_over = false := by
  by_contra hover
  have hover1 : s.game_over = true := by simpa using hover
  rw [update_game_over sqrt fl RAND_MAX s elapsed rand hover1] at hs
  rw [← Option.some.inj hs] at h1
  simp [reset_downs, hover1] at h1

theorem run_updates_keeps_game_over (sqrt fl : K → K) (RAND_MAX : Nat)
    (frames : List (K × (Nat → Nat))) (s s2 : PlayMode K)
    (hs : run_updates sqrt fl RAND_MAX s frames = some s2) (h2 : s2.game_over = false) :
    s.game_over = false := by
  induction frames generalizing s with
  | nil =>
      simp [run_updates] at hs
      rw [hs]
      exact h2
  | cons f frames ih =>
      simp only [run_updates] at hs
      cases hu : update sqrt fl RAND_MAX s f.1 f.2 with
      | none => simp [hu] at hs
      | some sm =>
          simp only [hu, Option.some_bind] at hs
          exact update_keeps_game_over sqrt fl RAND_MAX s sm f.1 f.2 hu (ih sm hs)

theorem timer_after_cons (fl : K → K) (t e : K) (es : List K) :
    timer_after fl t (e :: es) = timer_after fl (fl (t + e)) es := rfl

/-- The jump block alone, frame after frame: while the stored timer stays
within the stored cooldown the jump keeps running and the timer is the stored
sum. -/
theorem foldl_update_jump_running (sqrt fl : K → K) (es : List K) (s : PlayMode K)
    (hj : s.jump = true)
    (hpre : ∀ k, k ≤ es.length → timer_after fl s.jump_timer (es.take k) ≤ jump_cooldown) :
    (es.foldl (update_jump sqrt fl) s).jump = true ∧
      (es.foldl (update_jump sqrt fl) s).jump_timer = timer_after fl s.jump_timer es := by
  induction es generalizing s with
  | nil => exact ⟨hj, rfl⟩
  | cons e es ih =>
      have h1 : fl (s.jump_timer + e) ≤ jump_cooldown := by
        have := hpre 1 (by simp)
        simpa [timer_after] using this
      obtain ⟨r1, r2⟩ := update_jump_running sqrt fl s e hj h1
      have := ih (update_jump sqrt fl s e) r1 (by
        intro k hk
        rw [r2]
        have := hpre (k + 1) (by simpa using hk)
        simpa [timer_after_cons] using this)
      rw [r2] at this
      simpa [timer_after_cons] using this

/-- While the game stays Playing and the stored timer stays within the stored
cooldown, a running jump keeps running and its timer is the stored sum. -/
theorem run_updates_jump_running (sqrt fl : K → K) (RAND_MAX : Nat)
    (frames : List (K × (Nat → Nat))) (s s2 : PlayMode K)
    (hs : run_updates sqrt fl RAND_MAX s frames = some s2) (h2 : s2.game_over = false)
    (hj : s.jump = true)
    (hpre : ∀ k, k ≤ frames.length →
      timer_after fl s.jump_timer ((frames.take k).map Prod.fst) ≤ jump_cooldown) :
    s2.jump = true ∧ s2.jump_timer = timer_after fl s.jump_timer (frames.map Prod.fst) := by
  induction frames generalizing s with
  | nil =>
      simp [run_updates] at hs
      rw [← hs]
      exact ⟨hj, rfl⟩
  | cons f frames ih =>
      have hplay := run_updates_keeps_game_over sqrt fl RAND_MAX _ s s2 hs h2
      simp only [run_updates] at hs
      cases hu : update sqrt fl RAND_MAX s f.1 f.2 with
      | none => simp [hu] at hs
      | some sm =>
          simp only [hu, Option.some_bind] at hs
          have h1 : fl (s.jump_timer + f.1) ≤ jump_cooldown := by
            have := hpre 1 (by simp)
            simpa [timer_after] using this
          obtain ⟨e1, e2, -⟩ :=
            update_playing_jump_fields sqrt fl RAND_MAX s sm f.1 f.2 hplay hu
          obtain ⟨r1, r2⟩ := update_jump_running sqrt fl s f.1 hj h1
          have hmj : sm.jump = true := by rw [e1, r1]
          have hmt : sm.jump_timer = fl (s.jump_timer + f.1) := by rw [e2, r2]
          have := ih sm hs hmj (by
            intro k hk
            rw [hmt]
            have := hpre (k + 1) (by simpa using hk)
            simpa [timer_after_cons] using this)
          rw [hmt] at this
          simpa [timer_after_cons] using this

/-- The first frame of the sample run: a frame of `0.5` after the jump request
in a fresh session. -/
theorem jump_sample_first_run (RAND_MAX : Nat) (rand : Nat → Nat) :
    update Real.sqrt to_float RAND_MAX
        (handle_event (⟨0, 0, 0⟩ : Vec3 ℝ) (PlayMode.construct ⟨0, 0, 0⟩ [] [])
          (Event.KEY_DOWN Key.W)).1 (1 / 2) rand = some (jump_sample_first Real.sqrt) := by
  have h1 := to_float_half
  have hle : ¬ ((jump_cooldown : ℝ) < 1 / 2) := by norm_num [jump_cooldown]
  have h3 : ¬ ((3 : ℝ) < 0) := by norm_num
  have h52 : (3 : ℝ) - 1 / 2 = 5 / 2 := by norm_num
  simp only [update, update_jump, update_spawn, update_obstacles, obstacle_loop,
    update_projectiles, projectile_loop, reset_downs, handle_event, PlayMode.construct,
    Button.press, jump_sample_first, Vec3.add, h1, hle, h3, h52, Option.map_some', zero_add,
    and_self, if_true, if_false, gt_iff_lt, Nat.zero_add, Nat.one_mod]

/-- The second frame of the sample run: a frame of `0.2f`; the stored timer
becomes the `float` of `0.7`, which does not exceed the stored cooldown. -/
theorem jump_sample_second_run (RAND_MAX : Nat) (rand : Nat → Nat) :
    update Real.sqrt to_float RAND_MAX (jump_sample_first Real.sqrt) fifth_float rand =
      some (jump_sample_second Real.sqrt) := by
  have h1 := to_float_half_add_fifth
  have hle : ¬ ((jump_cooldown : ℝ) < 11744051 / 16777216) := by norm_num [jump_cooldown]
  have h3 : ¬ ((5 / 2 : ℝ) < 0) := by norm_num
  have h52 : (5 / 2 : ℝ) - fifth_float = 154350387 / 67108864 := by norm_num [fifth_float]
  simp only [update, update_jump, update_spawn, update_obstacles, obstacle_loop,
    update_projectiles, projectile_loop, reset_downs, jump_sample_first, jump_sample_second,
    Vec3.add, h1, hle, h3, h52, Option.map_some', zero_add, if_true, if_false, gt_iff_lt]

/-- C6, as stated, fails. A jump is requested in a fresh session and two frames
follow, of `0.5` and of `0.2f` (the `float` nearest to `0.2`). The accumulated
frame time `0.5 + 0.2f` exceeds `0.7`, yet after the second update the game is
Playing and the jump is still in progress: the stored timer is the `float` sum,
which equals the stored cooldown and does not exceed it. -/
theorem jump_outlasts_exact_time :
    (7 / 10 : ℝ) < 1 / 2 + fifth_float ∧
      (run_updates Real.sqrt to_float 2147483647
          (handle_event (⟨0, 0, 0⟩ : Vec3 ℝ) (PlayMode.construct ⟨0, 0, 0⟩ [] [])
            (Event.KEY_DOWN Key.W)).1
          [(1 / 2, fun _ => 0), (fifth_float, fun _ => 0)]).map
        (fun s => (s.game_over, s.jump, s.jump_timer)) =
        some (false, true, 11744051 / 16777216) := by
  constructor
  · norm_num [fifth_float]
  · simp only [run_updates, jump_sample_first_run, jump_sample_second_run, Option.some_bind,
      Option.map_some', jump_sample_second]

/-- C6, amended. In a reachable Playing state without a jump in progress a `W`
key-down sets `jump` with `jump_timer = 0`. In the jump block of a frame a
running jump keeps running, with the timer set to the stored (`float`) sum
`fl (jump_timer + elapsed)`, when that sum is at most the stored cooldown, and
is ended (`jump = false`, `jump_timer = 0`) when that sum exceeds it, whatever
the value of `jump_fn`. Hence, frame after frame, the jump is in progress with
the timer equal to the stored sum as long as the stored sum has stayed within
the stored cooldown, for the jump block on its own and for every run of
`update` after which the game is still Playing; the next frame at which the
stored sum exceeds the stored cooldown ends it. A `W` key-down while a jump is
in progress or after game over changes neither `jump` nor `jump_timer`. With no
projectile in flight every run of frames has a defined result. -/
theorem jump_lasts_until_cooldown (sqrt fl : K → K) (RAND_MAX : Nat) (scene_player : Vec3 K)
    (s : PlayMode K) (hreach : Reachable sqrt fl RAND_MAX scene_player s)
    (hplay : s.game_over = false) (hidle : s.jump = false) :
    (handle_event scene_player s (Event.KEY_DOWN Key.W)).1.jump = true ∧
      (handle_event scene_player s (Event.KEY_DOWN Key.W)).1.jump_timer = 0 ∧
      (∀ (t : PlayMode K) (elapsed : K), t.jump = true →
        (fl (t.jump_timer + elapsed) ≤ jump_cooldown →
            (update_jump sqrt fl t elapsed).jump = true ∧
              (update_jump sqrt fl t elapsed).jump_timer = fl (t.jump_timer + elapsed)) ∧
          (jump_cooldown < fl (t.jump_timer + elapsed) →
            (update_jump sqrt fl t elapsed).jump = false ∧
              (update_jump sqrt fl t elapsed).jump_timer = 0)) ∧
      (∀ es : List K,
        (∀ k, k ≤ es.length → timer_after fl 0 (es.take k) ≤ jump_cooldown) →
        (es.foldl (update_jump sqrt fl)
            (handle_event scene_player s (Event.KEY_DOWN Key.W)).1).jump = true ∧
          (es.foldl (update_jump sqrt fl)
            (handle_event scene_player s (Event.KEY_DOWN Key.W)).1).jump_timer =
              timer_after fl 0 es) ∧
      (∀ (frames : List (K × (Nat → Nat))) (s2 : PlayMode K),
        run_updates sqrt fl RAND_MAX
            (handle_event scene_player s (Event.KEY_DOWN Key.W)).1 frames = some s2 →
        s2.game_over = false →
        (∀ k, k ≤ frames.length →
          timer_after fl 0 ((frames.take k).map Prod.fst) ≤ jump_cooldown) →
        (s2.jump = true ∧ s2.jump_timer = timer_after fl 0 (frames.map Prod.fst)) ∧
          ∀ (elapsed : K) (rand : Nat → Nat) (s3 : PlayMode K),
            jump_cooldown < fl (s2.jump_timer + elapsed) →
            update sqrt fl RAND_MAX s2 elapsed rand = some s3 →
            s3.jump = false ∧ s3.jump_timer = 0) ∧
      (∀ t : PlayMode K, t.jump = true ∨ t.game_over = true →
        (handle_event scene_player t (Event.KEY_DOWN Key.W)).1.jump = t.jump ∧
          (handle_event scene_player t (Event.KEY_DOWN Key.W)).1.jump_timer = t.jump_timer) ∧
      (s.projectiles = [] → ∀ frames : List (K × (Nat → Nat)),
        ∃ s2, run_updates sqrt fl RAND_MAX
          (handle_event scene_player s (Event.KEY_DOWN Key.W)).1 frames = some s2) := by
  have h0 := reachable_idle_timer sqrt fl RAND_MAX scene_player s hreach hidle
  have hj1 : (handle_event scene_player s (Event.KEY_DOWN Key.W)).1.jump = true := by
    simp [handle_event, hplay, hidle]
  have ht1 : (handle_event scene_player s (Event.KEY_DOWN Key.W)).1.jump_timer = 0 := by
    simp [handle_event, hplay, hidle, h0]
  refine ⟨hj1, ht1, ?_, ?_, ?_, ?_, ?_⟩
  · intro t elapsed hj
    exact ⟨fun hle => update_jump_running sqrt fl t elapsed hj hle,
      fun hgt => ⟨(update_jump_ended sqrt fl t elapsed hj hgt).1,
        (update_jump_ended sqrt fl t elapsed hj hgt).2.1⟩⟩
  · intro es hpre
    have := foldl_update_jump_running sqrt fl es _ hj1 (by rw [ht1]; exact hpre)
    rw [ht1] at this
    exact this
  · intro frames s2 hs h2 hpre
    have hrun := run_updates_jump_running sqrt fl RAND_MAX frames _ s2 hs h2 hj1
      (by rw [ht1]; exact hpre)
    rw [ht1] at hrun
    refine ⟨hrun, ?_⟩
    intro elapsed rand s3 hgt hs3
    obtain ⟨e1, e2, -⟩ := update_playing_jump_fields sqrt fl RAND_MAX s2 s3 elapsed rand h2 hs3
    obtain ⟨r1, r2, -⟩ := update_jump_ended sqrt fl s2 elapsed hrun.1 hgt
    exact ⟨by rw [e1, r1], by rw [e2, r2]⟩
  · intro t ht
    rcases ht with ht | ht
    · simp [handle_event, ht]
    · simp [handle_event, ht]
  · intro hp frames
    exact run_updates_defined_of_no_projectiles sqrt fl RAND_MAX frames _ (by
      simp [handle_event, hplay, hidle, hp])

/-- C6 amended, at a concrete run: a jump requested in a fresh session is in
progress after a frame of `0.5`, with the stored timer `0.5`. -/
theorem jump_lasts_until_cooldown_witness :
    Reachable Real.sqrt to_float 32767 (⟨0, 0, 0⟩ : Vec3 ℝ) (PlayMode.construct ⟨0, 0, 0⟩ [] []) ∧
      (PlayMode.construct (⟨0, 0, 0⟩ : Vec3 ℝ) [] []).game_over = false ∧
      (PlayMode.construct (⟨0, 0, 0⟩ : Vec3 ℝ) [] []).jump = false ∧
      run_updates Real.sqrt to_float 32767
          (handle_event (⟨0, 0, 0⟩ : Vec3 ℝ) (PlayMode.construct ⟨0, 0, 0⟩ [] [])
            (Event.KEY_DOWN Key.W)).1 [(1 / 2, fun _ => 0)] =
        some (jump_sample_first Real.sqrt) ∧
      (jump_sample_first Real.sqrt).game_over = false ∧
      (jump_sample_first Real.sqrt).jump = true ∧
      (jump_sample_first Real.sqrt).jump_timer =
        timer_after to_float 0 ([((1 / 2 : ℝ), fun _ : Nat => 0)].map Prod.fst) :=
  have hrun : run_updates Real.sqrt to_float 32767
      (handle_event (⟨0, 0, 0⟩ : Vec3 ℝ) (PlayMode.construct ⟨0, 0, 0⟩ [] [])
        (Event.KEY_DOWN Key.W)).1 [(1 / 2, fun _ => 0)] =
      some (jump_sample_first Real.sqrt) := by
    simp only [run_updates, jump_sample_first_run, Option.some_bind]
  ⟨Reachable.start, rfl, rfl, hrun, rfl,
    ((jump_lasts_until_cooldown Real.sqrt to_float 32767 (⟨0, 0, 0⟩ : Vec3 ℝ)
      (PlayMode.construct ⟨0, 0, 0⟩ [] []) Reachable.start rfl rfl).2.2.2.2.1
        [(1 / 2, fun _ => 0)] (jump_sample_first Real.sqrt) hrun rfl
        (by
          intro k hk
          have hk2 : k = 0 ∨ k = 1 := by
            simp at hk
            omega
          rcases hk2 with rfl | rfl
          · norm_num [timer_after, jump_cooldown]
          · have := to_float_zero_add_half
            simp only [List.take, List.map, timer_after, List.foldl, this]
            norm_num [jump_cooldown])).1⟩

/-- C9, as stated, fails. An obstacle at `(0, 3, 0)` with speed `-20`, a player
at the origin and a frame of `0.1`: after this frame's motion the obstacle is at
`(0, 1, 0)`, inside the box around the player, yet `update` leaves `game_over`
false, because the test saw the position `(0, 3, 0)` from before the motion. -/
theorem obstacle_test_not_after_motion :
    hits_player (⟨0, 0, 0⟩ : Vec3 ℝ)
        ((Projectile.create (⟨0, 3, 0⟩ : Vec3 ℝ) (-20)).update (1 / 10)).1 = true ∧
      (update Real.sqrt to_float 32767
        (PlayMode.construct (⟨0, 0, 0⟩ : Vec3 ℝ) [Projectile.create ⟨0, 3, 0⟩ (-20)] [])
        (1 / 10) (fun _ => 0)).map (fun s => (s.game_over, s.obstacles)) =
        some (false, [{ position := ⟨0, 1, 0⟩, speed := -20, lifetime := 19 / 10 }]) := by
  constructor
  · norm_num [hits_player, Projectile.update_fst, Projectile.create, abs_lt]
  · norm_num [update, update_jump, update_spawn, update_obstacles, obstacle_loop_eq,
      update_projectiles, projectile_loop, reset_downs, PlayMode.construct,
      Projectile.update_fst, Projectile.update_snd, Projectile.create, hits_player, abs_lt]

/-- C9, amended. In the obstacle block each obstacle is tested against the
player at the position it has before this frame's step, and stepped afterwards:
the flag after the block is raised exactly when it was raised before or some
obstacle of the incoming list lies in the box at its incoming position, so the
flag does not depend on `elapsed`; the obstacles that remain carry the position
moved by `speed * elapsed` along `y`. -/
theorem obstacle_test_before_step (s : PlayMode K) (elapsed : K) :
    ((update_obstacles s elapsed).game_over = true ↔
        s.game_over = true ∨
          ∃ o ∈ s.obstacles,
            |o.position.y - s.player.y| < 2 ∧ |o.position.z - s.player.z| < 3) ∧
      (∀ elapsed2 : K,
        (update_obstacles s elapsed).game_over = (update_obstacles s elapsed2).game_over) ∧
      (∀ o1 ∈ (update_obstacles s elapsed).obstacles,
        ∃ o ∈ s.obstacles,
          o1.position = ⟨o.position.x, o.position.y + o.speed * elapsed, o.position.z⟩) := by
  refine ⟨?_, ?_, ?_⟩
  · simp [update_obstacles, obstacle_loop_eq, List.any_eq_true, hits_player]
  · intro elapsed2
    simp [update_obstacles, obstacle_loop_eq]
  · intro o1 h1
    simp only [update_obstacles, obstacle_loop_eq, List.mem_map, List.mem_filter] at h1
    obtain ⟨o, ⟨ho, -⟩, rfl⟩ := h1
    exact ⟨o, ho, by rw [Projectile.update_fst]⟩

/-- C10, as stated, fails. In a Playing state with `spawn_timer = -1` and odd
draws, a frame of length `3` spawns the three obstacles and the obstacle pass
of the same `update` removes all three again: their lifetime `2` has run out
in their own step. No projectile is involved. -/
theorem spawned_obstacles_expire :
    (update_spawn 32767
        ({ PlayMode.construct (⟨0, 0, 0⟩ : Vec3 ℝ) [] [] with spawn_timer := -1 } : PlayMode ℝ)
        3 (fun _ => 1)).obstacles =
        [Projectile.create ⟨0, 15, 1⟩ (-20), Projectile.create ⟨0, 15, 3⟩ (-20),
          Projectile.create ⟨0, 17, 5⟩ (-20)] ∧
      ((Projectile.create (⟨0, 15, 1⟩ : Vec3 ℝ) (-20)).update 3).2 = true ∧
      (update Real.sqrt to_float 32767
        ({ PlayMode.construct (⟨0, 0, 0⟩ : Vec3 ℝ) [] [] with spawn_timer := -1 } : PlayMode ℝ)
        3 (fun _ => 1)).map (fun s => s.obstacles) = some [] := by
  refine ⟨?_, ?_, ?_⟩
  · norm_num [update_spawn, spawn_slot, random_bool, PlayMode.construct]
  · norm_num [Projectile.update_snd, Projectile.create]
  · norm_num [update, update_jump, update_spawn, spawn_slot, random_bool, update_obstacles,
      obstacle_loop_eq, update_projectiles, projectile_loop, reset_downs, PlayMode.construct,
      Projectile.update_fst, Projectile.update_snd, Projectile.create]

/-- C10, amended. Every obstacle the spawn block appends has lifetime `2`. An
obstacle's own step reports it destroyed exactly when its lifetime minus
`elapsed` is negative, and the obstacle pass keeps, stepped and in order,
exactly the obstacles for which this is not the case, whatever the game-over
flag is before or after the pass. A defined `update` of a Playing state ends
with exactly the obstacles the obstacle pass kept, and an event leaves the
obstacle list as it is or (restart) empties it. -/
theorem obstacle_kept_iff_alive (sqrt fl : K → K) (RAND_MAX : Nat) (scene_player : Vec3 K)
    (s : PlayMode K) (elapsed : K) (rand : Nat → Nat) :
    (∀ o ∈ (update_spawn RAND_MAX s elapsed rand).obstacles,
        o ∈ s.obstacles ∨ (o.lifetime = 2 ∧ o.speed = -20)) ∧
      (∀ o : Projectile K, (o.update elapsed).2 = true ↔ o.lifetime - elapsed < 0) ∧
      (update_obstacles s elapsed).obstacles =
        (s.obstacles.filter (fun o => decide (0 ≤ o.lifetime - elapsed))).map
          (fun o =>
            { position := ⟨o.position.x, o.position.y + o.speed * elapsed, o.position.z⟩
              speed := o.speed
              lifetime := o.lifetime - elapsed }) ∧
      (s.game_over = false → ∀ s1, update sqrt fl RAND_MAX s elapsed rand = some s1 →
        s1.obstacles =
          ((update_spawn RAND_MAX s elapsed rand).obstacles.filter
            (fun o => decide (0 ≤ o.lifetime - elapsed))).map
            (fun o =>
              { position := ⟨o.position.x, o.position.y + o.speed * elapsed, o.position.z⟩
                speed := o.speed
                lifetime := o.lifetime - elapsed })) ∧
      (∀ evt : Event,
        (handle_event scene_player s evt).1.obstacles = s.obstacles ∨
          (handle_event scene_player s evt).1.obstacles = []) := by
  have hf : (fun o : Projectile K => !(o.update elapsed).2) =
      fun o => decide (0 ≤ o.lifetime - elapsed) := by
    funext o
    rw [Projectile.update_snd]
    by_cases h : o.lifetime - elapsed < 0
    · simp [h, not_le.mpr h]
    · simp [h, not_lt.mp h]
  have hm : (fun o : Projectile K => (o.update elapsed).1) =
      fun o =>
        { position := ⟨o.position.x, o.position.y + o.speed * elapsed, o.position.z⟩
          speed := o.speed
          lifetime := o.lifetime - elapsed } := by
    funext o
    exact Projectile.update_fst o elapsed
  refine ⟨?_, ?_, ?_, ?_, ?_⟩
  · intro o ho
    by_cases h : s.spawn_timer < 0
    · simp only [update_spawn, h, if_true, spawn_slot_eq, List.mem_append] at ho
      rcases ho with ((ho | ho) | ho) | ho
      · exact Or.inl ho
      · by_cases hb : random_bool (rand 0) = true <;> simp [hb] at ho
        right; rw [ho]; exact ⟨rfl, rfl⟩
      · by_cases hb : random_bool (rand 1) = true <;> simp [hb] at ho
        right; rw [ho]; exact ⟨rfl, rfl⟩
      · by_cases hb : random_bool (rand 2) = true <;> simp [hb] at ho
        right; rw [ho]; exact ⟨rfl, rfl⟩
    · simp only [update_spawn, h, if_false] at ho
      exact Or.inl ho
  · intro o
    simp [Projectile.update_snd]
  · simp only [update_obstacles, obstacle_loop_eq]
    rw [hf, hm]
  · intro hplay s1 hs
    rw [update_playing_some sqrt fl RAND_MAX s s1 elapsed rand hplay hs]
    have ho := update_jump_obstacles sqrt fl s elapsed
    have ht := update_jump_spawn_timer sqrt fl s elapsed
    have hsp : (update_spawn RAND_MAX (update_jump sqrt fl s elapsed) elapsed rand).obstacles =
        (update_spawn RAND_MAX s elapsed rand).obstacles := by
      by_cases h : s.spawn_timer < 0 <;> simp [update_spawn, ho, ht, h]
    simp only [reset_downs, after_obstacles, update_obstacles, obstacle_loop_eq, hsp]
    rw [hf, hm]
  · intro evt
    cases evt with
    | KEY_DOWN key =>
        left
        cases key <;> try rfl
        by_cases hc : s.game_over = false ∧ s.jump = false <;> simp [handle_event, hc]
    | KEY_UP key =>
        left
        cases key <;> try rfl
        by_cases hc : s.game_over = false <;> simp [handle_event, hc]
    | MOUSE_BUTTON_DOWN =>
        by_cases hc : s.game_over = true
        · right
          simp [handle_event, hc, PlayMode.construct]
        · left
          simp [handle_event, hc]
    | other => exact Or.inl rfl

/-- C10 amended, at a concrete frame: a Playing state with one obstacle of
lifetime `2` and one of lifetime `1/4`, frame length `1/2`; the update keeps the
first, stepped, and drops the second. -/
theorem obstacle_kept_iff_alive_witness :
    (PlayMode.construct (⟨0, 0, 0⟩ : Vec3 ℝ)
        [Projectile.create ⟨0, 15, 1⟩ (-20),
          { position := ⟨0, -20, 3⟩, speed := -20, lifetime := 1 / 4 }] []).game_over = false ∧
      (update_obstacles
        (PlayMode.construct (⟨0, 0, 0⟩ : Vec3 ℝ)
          [Projectile.create ⟨0, 15, 1⟩ (-20),
            { position := ⟨0, -20, 3⟩, speed := -20, lifetime := 1 / 4 }] [])
        (1 / 2)).obstacles =
        [{ position := ⟨0, 5, 1⟩, speed := -20, lifetime := 3 / 2 }] := by
  refine ⟨rfl, ?_⟩
  rw [(obstacle_kept_iff_alive Real.sqrt to_float 32767 (⟨0, 0, 0⟩ : Vec3 ℝ)
    (PlayMode.construct (⟨0, 0, 0⟩ : Vec3 ℝ)
      [Projectile.create ⟨0, 15, 1⟩ (-20),
        { position := ⟨0, -20, 3⟩, speed := -20, lifetime := 1 / 4 }] [])
    (1 / 2) (fun _ => 0)).2.2.1]
  norm_num [PlayMode.construct, Projectile.create, List.filter]

/-- C1, at the failing input. One obstacle and one projectile at the same
position `(0, 15, 1)` in a Playing state, frame length `0`: the collision
branch erases the projectile iterator from the obstacle list, so `update` has
no defined result instead of two empty lists. -/
theorem collision_erases_from_wrong_list (fl : ℝ → ℝ) (RAND_MAX : Nat) (rand : Nat → Nat) :
    update Real.sqrt fl RAND_MAX
      (PlayMode.construct (⟨0, 0, 0⟩ : Vec3 ℝ) [Projectile.create ⟨0, 15, 1⟩ (-20)]
        [Projectile.create ⟨0, 15, 1⟩ 20]) 0 rand = none := by
  norm_num [update, update_jump, update_spawn, update_obstacles, obstacle_loop_eq,
    update_projectiles, projectile_loop, first_hit, list_erase, reset_downs,
    PlayMode.construct, Projectile.update_fst, Projectile.update_snd, Projectile.create,
    hits_player, Vec3.sub, Vec3.length]

end DinoGame
